import Mathlib

/-!
Verification development for the CST_435 story-pipeline program.

The Python source is shallowly embedded:
* Python `dict` is modelled as an association list `List (String × α)`
  (first match wins on lookup, `setk` replaces in place like `dict.__setitem__`).
* Python's dynamically typed JSON-like payloads are modelled by the
  inductive `Val`; Python truthiness is `Val.truthy`.
* `time.time()` (a float clock) is modelled by an integer-valued clock
  `Clk` that yields one value per call; float instants are represented at
  integer resolution (no claim depends on sub-integer time).
* In-place mutation is modelled by explicit state passing.
-/

namespace StoryPipeline

/-- Lookup in a Python-dict model: first matching key wins. -/
def getk {α : Type} : List (String × α) → String → Option α
  | [], _ => none
  | (k', v) :: t, k => if k' = k then some v else getk t k

/-- `d[k] = v` on a Python dict: replace the value in place if the key is
present, otherwise append the new pair at the end. -/
def setk {α : Type} : List (String × α) → String → α → List (String × α)
  | [], k, v => [(k, v)]
  | (k', v') :: t, k, v => if k' = k then (k, v) :: t else (k', v') :: setk t k v

/-- `d.update(o)` on Python dicts: set every key of `o` in order. -/
def updatek {α : Type} (m o : List (String × α)) : List (String × α) :=
  o.foldl (fun acc p => setk acc p.1 p.2) m

/-- Dynamically typed JSON-like Python value. -/
inductive Val where
  | vnull : Val
  | vbool : Bool → Val
  | vint : Int → Val
  | vrat : ℚ → Val
  | vstr : String → Val
  | vlist : List Val → Val
  | vdict : List (String × Val) → Val

/-- Python truthiness of a value. -/
def Val.truthy : Val → Bool
  | .vnull => false
  | .vbool b => b
  | .vint n => n != 0
  | .vrat q => q != 0
  | .vstr s => s != ""
  | .vlist xs => !xs.isEmpty
  | .vdict xs => !xs.isEmpty

/-- Truthiness of an optional field holding a value (`None` is falsy). -/
def optTruthy : Option Val → Bool
  | none => false
  | some v => v.truthy

/-- Python `x or y` (returns the first truthy operand, else the last). -/
def pyOr (a b : Val) : Val := if a.truthy then a else b

/-- Python `x and y`. -/
def pyAnd (a b : Val) : Val := if a.truthy then b else a

/-- `data.get(k)` on a dict-valued `Val`; `None` when absent.  (The source
only calls `.get` on values known to be dicts; on a non-dict we return
`vnull`, the typed stand-in for the dynamic edge case.) -/
def pyGet : Val → String → Val
  | .vdict xs, k => (getk xs k).getD .vnull
  | _, _ => .vnull

/-- Truthiness of an optional float timestamp (`0.0` and `None` are falsy). -/
def truthyTime : Option Int → Bool
  | none => false
  | some t => t != 0

/-- `TimestampRecord` from `core/message.py`: one service's execution window. -/
structure TimestampRecord where
  service_name : String
  received_time : Option Int := none
  start_time : Option Int := none
  end_time : Option Int := none
deriving DecidableEq

/-- `PipelineMessage` from `core/message.py`. -/
@[ext] structure PipelineMessage where
  user_input : String
  story_text : Option String := none
  analysis : Option Val := none
  image_concept : Option Val := none
  audio_script : Option Val := none
  translations : Option Val := none
  formatted_output : Option Val := none
  timestamps : List (String × TimestampRecord) := []
  metadata : List (String × Val) := []

/-- The wall clock: `f` gives the value of the n-th `time.time()` call,
`i` counts the calls made so far. -/
structure Clk where
  f : Nat → Int
  i : Nat

/-- One `time.time()` call. -/
def Clk.now (c : Clk) : Int × Clk := (c.f c.i, ⟨c.f, c.i + 1⟩)

/-- `PipelineMessage.add_timestamp`: the record the tracker will mutate
(a fresh blank record when the stage has none). -/
def add_timestamp (m : PipelineMessage) (service_name : String) : TimestampRecord :=
  (getk m.timestamps service_name).getD ⟨service_name, none, none, none⟩

/-- `TimestampTracker.mark_received`: stamps `received_time = time.time()`
(unconditionally) on the stage's record, creating the record if absent. -/
def mark_received (m : PipelineMessage) (service_name : String) (c : Clk) :
    PipelineMessage × Clk :=
  let r := add_timestamp m service_name
  let (t, c') := c.now
  ({ m with timestamps := setk m.timestamps service_name { r with received_time := some t } }, c')

/-- `TimestampTracker.mark_started`: backfills `received_time` when it is
falsy (unset or `0`), then stamps `start_time = time.time()`. -/
def mark_started (m : PipelineMessage) (service_name : String) (c : Clk) :
    PipelineMessage × Clk :=
  let r := add_timestamp m service_name
  let (r1, c1) :=
    if truthyTime r.received_time then (r, c)
    else
      let (t, c') := c.now
      ({ r with received_time := some t }, c')
  let (t2, c2) := c1.now
  ({ m with timestamps := setk m.timestamps service_name { r1 with start_time := some t2 } }, c2)

/-- `TimestampTracker.mark_completed`: stamps `end_time = time.time()`,
creating the record if absent. -/
def mark_completed (m : PipelineMessage) (service_name : String) (c : Clk) :
    PipelineMessage × Clk :=
  let r := add_timestamp m service_name
  let (t, c') := c.now
  ({ m with timestamps := setk m.timestamps service_name { r with end_time := some t } }, c')

/-! ### Basic map lemmas -/

theorem getk_setk_self {α : Type} (l : List (String × α)) (k : String) (v : α) :
    getk (setk l k v) k = some v := by
  induction l with
  | nil => simp [getk, setk]
  | cons h t ih =>
    by_cases hk : h.1 = k
    · simp [setk, hk, getk]
    · simp [setk, hk, getk, ih]

theorem getk_setk_ne {α : Type} (l : List (String × α)) (k k' : String) (v : α)
    (h : k' ≠ k) : getk (setk l k v) k' = getk l k' := by
  have h' : ¬(k = k') := fun hh => h hh.symm
  induction l with
  | nil => simp [getk, setk, h']
  | cons hd t ih =>
    by_cases hk : hd.1 = k
    · subst hk
      simp [setk, getk, h', h]
    · by_cases hk' : hd.1 = k'
      · simp [setk, hk, getk, hk', h]
      · simp [setk, hk, getk, hk', ih, h]

/-! ### Sequential pipeline runner (`core/pipeline.py`) -/

/-- `Pipeline.execute_pipeline`: run the registered services in chain order,
threading tracker marks around each call.  The registry is the `services`
map; a missing name raises `ValueError(f"Service {name} not registered")`,
modelled as the third component.  On error the message state at the time of
the raise is returned (the Python caller keeps its reference to the
in-place mutated message). -/
def execute_pipeline (services : List (String × (PipelineMessage → PipelineMessage)))
    (message : PipelineMessage) (service_chain : List String) (c : Clk) :
    PipelineMessage × Clk × Option String :=
  match service_chain with
  | [] => (message, c, none)
  | service_name :: rest =>
    match getk services service_name with
    | some service_func =>
      let (m1, c1) := mark_received message service_name c
      let (m2, c2) := mark_started m1 service_name c1
      let m3 := service_func m2
      let (m4, c4) := mark_completed m3 service_name c2
      execute_pipeline services m4 rest c4
    | none => (message, c, some ("Service " ++ service_name ++ " not registered"))

/-! ### Concrete fixtures used by witnesses and counterexamples -/

/-- A concrete strictly increasing, positive clock. -/
def clk0 : Clk := ⟨fun i => (i : Int) + 5, 0⟩

/-- A fresh message as built by `main.py` from a prompt. -/
def msg0 : PipelineMessage := { user_input := "u" }

/-! ### C6 — `mark_received` semantics -/

/-- C6 (corrected): the claim says a second `mark_received` leaves the
earlier `received_at` unchanged; in the code the stamp is unconditional,
so a repeat call moves `received_at` from 5 to 6. -/
theorem claim_C6_counterexample :
    getk (mark_received msg0 "s" clk0).1.timestamps "s"
        = some ⟨"s", some 5, none, none⟩
    ∧ getk (mark_received (mark_received msg0 "s" clk0).1 "s"
          (mark_received msg0 "s" clk0).2).1.timestamps "s"
        = some ⟨"s", some 6, none, none⟩ := by
  exact ⟨rfl, rfl⟩

/-- C6 (amended): `mark_received` creates the stage's record if absent and
always re-stamps `received_at` with the current clock value, keeping the
record's other fields; records of other stages are untouched. -/
theorem claim_C6_amended (m : PipelineMessage) (name : String) (c : Clk) :
    getk (mark_received m name c).1.timestamps name
        = some { add_timestamp m name with received_time := some (c.f c.i) }
    ∧ ∀ k, k ≠ name → getk (mark_received m name c).1.timestamps k = getk m.timestamps k := by
  constructor
  · simp [mark_received, Clk.now, getk_setk_self]
  · intro k hk
    simp [mark_received, Clk.now, getk_setk_ne _ _ _ _ hk]

/-- Witness for C6 (amended) at a concrete message, stage and clock. -/
theorem claim_C6_witness :
    getk (mark_received msg0 "s" clk0).1.timestamps "s"
        = some { add_timestamp msg0 "s" with received_time := some (clk0.f clk0.i) }
    ∧ ("t" : String) ≠ "s"
    ∧ getk (mark_received msg0 "s" clk0).1.timestamps "t" = getk msg0.timestamps "t" :=
  ⟨(claim_C6_amended msg0 "s" clk0).1, by decide,
    (claim_C6_amended msg0 "s" clk0).2 "t" (by decide)⟩

/-! ### C1 — sequential runner fail-fast behaviour -/

/-- Registry for the C1 counterexample: one registered stage whose effect
is visible on the message. -/
def regC1 : List (String × (PipelineMessage → PipelineMessage)) :=
  [("a", fun m => { m with story_text := some "ran" })]

/-- C1 (corrected): the claim says the runner raises before any stage of a
chain containing an unregistered name runs.  On the chain `["a", "bad"]`
the registered stage `"a"` runs first (its effect `story_text = "ran"` is
visible on the message at the time of the raise); only then is the error
`"Service bad not registered"` raised. -/
theorem claim_C1_counterexample :
    (execute_pipeline regC1 msg0 ["a", "bad"] clk0).2.2
        = some "Service bad not registered"
    ∧ (execute_pipeline regC1 msg0 ["a", "bad"] clk0).1.story_text = some "ran"
    ∧ msg0.story_text = none :=
  ⟨rfl, rfl, rfl⟩

/-- C1 (amended): the runner raises the distinguishable error
`"Service <name> not registered"` when it reaches the first unregistered
name of the chain; the stages before it have already executed and their
partial progress survives in the returned message state (no rollback). -/
theorem claim_C1_amended
    (services : List (String × (PipelineMessage → PipelineMessage)))
    (m : PipelineMessage) (c : Clk) (pre : List String) (bad : String)
    (rest : List String)
    (hpre : ∀ n ∈ pre, (getk services n).isSome)
    (hbad : getk services bad = none) :
    execute_pipeline services m (pre ++ bad :: rest) c
      = ((execute_pipeline services m pre c).1,
         (execute_pipeline services m pre c).2.1,
         some ("Service " ++ bad ++ " not registered")) := by
  induction pre generalizing m c with
  | nil => simp [execute_pipeline, hbad]
  | cons h t ih =>
    obtain ⟨f, hf⟩ := Option.isSome_iff_exists.mp (hpre h (by simp))
    simp only [List.cons_append, execute_pipeline, hf]
    exact ih _ _ (fun n hn => hpre n (List.mem_cons_of_mem _ hn))

/-- Witness for C1 (amended): concrete registry, chain and clock. -/
theorem claim_C1_witness :
    execute_pipeline regC1 msg0 (["a"] ++ "bad" :: ["x"]) clk0
      = ((execute_pipeline regC1 msg0 ["a"] clk0).1,
         (execute_pipeline regC1 msg0 ["a"] clk0).2.1,
         some ("Service " ++ "bad" ++ " not registered")) :=
  claim_C1_amended regC1 msg0 clk0 ["a"] "bad" ["x"]
    (by intro n hn; simp at hn; subst hn; rfl) rfl

/-! ### Merge helpers -/

/-- `orO a b` is `a` unless it is `none`; the shape of a Python
"keep existing, else take the other" lookup. -/
def orO {α : Type} : Option α → Option α → Option α
  | some v, _ => some v
  | none, b => b

/-- The timestamp-merge loop shared by `main.py::_merge_message` and the
hub's collection loop: insert the source's entries that the destination
does not already have (`if name not in dst: dst[name] = ts`). -/
def merge_timestamps (dst src : List (String × TimestampRecord)) :
    List (String × TimestampRecord) :=
  src.foldl (fun acc p => if (getk acc p.1).isSome then acc else setk acc p.1 p.2) dst

theorem getk_setk_of_none {α : Type} (l : List (String × α)) (k : String) (v : α)
    (h : getk l k = none) : setk l k v = l ++ [(k, v)] := by
  induction l with
  | nil => simp [setk]
  | cons hd t ih =>
    by_cases hk : hd.1 = k
    · simp [getk, hk] at h
    · simp [getk, hk] at h
      simp [setk, hk, ih h]

theorem getk_isSome_of_mem {α : Type} {l : List (String × α)} {p : String × α}
    (h : p ∈ l) : (getk l p.1).isSome := by
  induction l with
  | nil => simp at h
  | cons hd t ih =>
    by_cases hk : hd.1 = p.1
    · simp [getk, hk]
    · rcases List.mem_cons.mp h with h1 | h1
      · subst h1; simp at hk
      · simp [getk, hk, ih h1]

theorem getk_some_mem {α : Type} {l : List (String × α)} {k : String} {v : α}
    (h : getk l k = some v) : (k, v) ∈ l := by
  induction l with
  | nil => simp [getk] at h
  | cons hd t ih =>
    obtain ⟨a, b⟩ := hd
    by_cases hk : a = k
    · subst hk
      simp [getk] at h
      subst h
      exact List.mem_cons_self _ _
    · simp [getk, hk] at h
      exact List.mem_cons_of_mem _ (ih h)

theorem getk_append {α : Type} (l1 l2 : List (String × α)) (k : String) :
    getk (l1 ++ l2) k = orO (getk l1 k) (getk l2 k) := by
  induction l1 with
  | nil => simp [getk, orO]
  | cons hd t ih =>
    by_cases hk : hd.1 = k
    · simp [getk, hk, orO]
    · simp [getk, hk, ih]

/-- Lookup characterization of the timestamp merge: destination wins. -/
theorem getk_merge_timestamps (dst src : List (String × TimestampRecord)) (k : String) :
    getk (merge_timestamps dst src) k = orO (getk dst k) (getk src k) := by
  induction src generalizing dst with
  | nil => cases h : getk dst k <;> simp [merge_timestamps, getk, orO, h]
  | cons hd t ih =>
    show getk (merge_timestamps (if (getk dst hd.1).isSome then dst else setk dst hd.1 hd.2) t) k = _
    by_cases hk : hd.1 = k
    · subst hk
      cases h : getk dst hd.1 with
      | some v => simp [h, ih, getk, orO]
      | none =>
        simp only [h, Option.isSome_none, Bool.false_eq_true, if_false, ih]
        simp [getk_setk_self, getk, orO]
    · cases h : getk dst hd.1 with
      | some v => simp [h, ih, getk, hk, orO]
      | none =>
        simp only [h, Option.isSome_none, Bool.false_eq_true, if_false, ih]
        rw [getk_setk_ne _ _ _ _ (fun hh => hk hh.symm)]
        simp [getk, hk]

/-- If every key of `src` is already present in `dst`, the merge is a no-op. -/
theorem merge_timestamps_of_present (dst src : List (String × TimestampRecord))
    (h : ∀ p ∈ src, (getk dst p.1).isSome) : merge_timestamps dst src = dst := by
  induction src generalizing dst with
  | nil => rfl
  | cons hd t ih =>
    show merge_timestamps (if (getk dst hd.1).isSome then dst else setk dst hd.1 hd.2) t = dst
    rw [if_pos (h hd (by simp))]
    exact ih dst (fun p hp => h p (List.mem_cons_of_mem _ hp))

/-- `dict.update` characterization (source keys must be duplicate-free,
which holds for every Python dict): the updating dict wins per key. -/
theorem getk_updatek {α : Type} (m o : List (String × α)) (k : String)
    (h : (o.map Prod.fst).Nodup) : getk (updatek m o) k = orO (getk o k) (getk m k) := by
  induction o generalizing m with
  | nil => cases hm : getk m k <;> simp [updatek, getk, orO, hm]
  | cons hd t ih =>
    simp only [List.map_cons, List.nodup_cons] at h
    show getk (updatek (setk m hd.1 hd.2) t) k = _
    rw [ih _ h.2]
    by_cases hk : hd.1 = k
    · subst hk
      cases ht : getk t hd.1 with
      | some v =>
        exact absurd (List.mem_map.mpr ⟨_, getk_some_mem ht, rfl⟩) h.1
      | none => simp [ht, getk_setk_self, getk, orO]
    · rw [getk_setk_ne _ _ _ _ (fun hh => hk hh.symm)]
      simp [getk, hk]

/-! ### C5 — top-level cross-transport merge (`main.py::_merge_message`) -/

/-- `_merge_message` from `main.py` (the Python body is a sequence of
independent per-field in-place conditionals; rendered as one record
update): every field that is not `None` on `src` overwrites `dst`,
`metadata` is `dict.update`-merged (remote wins), timestamps are merged
without clobbering existing entries (local wins). -/
def merge_message (dst src : PipelineMessage) : PipelineMessage :=
  { dst with
    story_text := if src.story_text.isSome then src.story_text else dst.story_text
    analysis := if src.analysis.isSome then src.analysis else dst.analysis
    image_concept := if src.image_concept.isSome then src.image_concept else dst.image_concept
    audio_script := if src.audio_script.isSome then src.audio_script else dst.audio_script
    translations := if src.translations.isSome then src.translations else dst.translations
    formatted_output :=
      if src.formatted_output.isSome then src.formatted_output else dst.formatted_output
    metadata := if src.metadata.isEmpty then dst.metadata else updatek dst.metadata src.metadata
    timestamps := merge_timestamps dst.timestamps src.timestamps }

/-- C5 (confirmed): the cross-transport merge overwrites each field that is
non-null on the remote message, key-unions metadata with remote winning,
unions timestamps with local winning, and consequently never drops or
overwrites an existing timestamp record. -/
theorem claim_C5 (dst src : PipelineMessage)
    (hnd : (src.metadata.map Prod.fst).Nodup) :
    ((merge_message dst src).story_text
        = if src.story_text.isSome then src.story_text else dst.story_text)
    ∧ ((merge_message dst src).analysis
        = if src.analysis.isSome then src.analysis else dst.analysis)
    ∧ ((merge_message dst src).image_concept
        = if src.image_concept.isSome then src.image_concept else dst.image_concept)
    ∧ ((merge_message dst src).audio_script
        = if src.audio_script.isSome then src.audio_script else dst.audio_script)
    ∧ ((merge_message dst src).translations
        = if src.translations.isSome then src.translations else dst.translations)
    ∧ ((merge_message dst src).formatted_output
        = if src.formatted_output.isSome then src.formatted_output else dst.formatted_output)
    ∧ (∀ k, getk (merge_message dst src).metadata k
        = orO (getk src.metadata k) (getk dst.metadata k))
    ∧ (∀ k, getk (merge_message dst src).timestamps k
        = orO (getk dst.timestamps k) (getk src.timestamps k))
    ∧ (∀ k rec, getk dst.timestamps k = some rec →
        getk (merge_message dst src).timestamps k = some rec) := by
  refine ⟨rfl, rfl, rfl, rfl, rfl, rfl, ?_, ?_, ?_⟩
  · intro k
    show getk (if src.metadata.isEmpty then dst.metadata else updatek dst.metadata src.metadata) k
        = _
    cases hsm : src.metadata with
    | nil => cases h : getk dst.metadata k <;> simp [getk, orO, h]
    | cons hd t =>
      rw [if_neg (by simp)]
      rw [getk_updatek _ _ _ (hsm ▸ hnd)]
  · intro k
    exact getk_merge_timestamps _ _ _
  · intro k rec h
    show getk (merge_timestamps dst.timestamps src.timestamps) k = some rec
    rw [getk_merge_timestamps, h]
    rfl

/-- Concrete local message for the C5 witness. -/
def msgDst : PipelineMessage :=
  { user_input := "u", story_text := some "local"
    metadata := [("theme", .vstr "space"), ("k", .vint 1)]
    timestamps := [("service_a_story_generator", ⟨"service_a_story_generator", some 5, some 6, none⟩)] }

/-- Concrete remote message for the C5 witness. -/
def msgSrc : PipelineMessage :=
  { user_input := "u", story_text := some "remote", analysis := some (.vdict [("s", .vstr "x")])
    metadata := [("k", .vint 2), ("m", .vstr "y")]
    timestamps := [("service_a_story_generator", ⟨"service_a_story_generator", some 7, some 8, some 9⟩),
                   ("other", ⟨"other", none, some 1, some 2⟩)] }

/-- Witness for C5 at concrete local/remote messages. -/
theorem claim_C5_witness :
    (msgSrc.metadata.map Prod.fst).Nodup
    ∧ ((merge_message msgDst msgSrc).story_text
          = if msgSrc.story_text.isSome then msgSrc.story_text else msgDst.story_text)
    ∧ (∀ k, getk (merge_message msgDst msgSrc).timestamps k
          = orO (getk msgDst.timestamps k) (getk msgSrc.timestamps k)) :=
  ⟨by decide, (claim_C5 msgDst msgSrc (by decide)).1,
    (claim_C5 msgDst msgSrc (by decide)).2.2.2.2.2.2.2.1⟩

/-! ### C3 — hub result merge (`service_c_parallel_hub.py`, collection loop) -/

/-- The body of the hub's `as_completed` collection loop (lines 110–121):
copy each parallel output field of the completed result that is truthy,
then merge its timestamp entries without overwriting existing ones. -/
def hub_merge (message result : PipelineMessage) : PipelineMessage :=
  { message with
    image_concept :=
      if optTruthy result.image_concept then result.image_concept else message.image_concept
    audio_script :=
      if optTruthy result.audio_script then result.audio_script else message.audio_script
    translations :=
      if optTruthy result.translations then result.translations else message.translations
    formatted_output :=
      if optTruthy result.formatted_output then result.formatted_output
      else message.formatted_output
    timestamps := merge_timestamps message.timestamps result.timestamps }

/-- Merging a list of completed sub-stage results in completion order. -/
def merge_results (m : PipelineMessage) (rs : List PipelineMessage) : PipelineMessage :=
  rs.foldl hub_merge m

/-- Equality of messages as Python `==` sees them: every plain field equal
and the timestamp dict extensionally equal. -/
def msgEquiv (a b : PipelineMessage) : Prop :=
  a.user_input = b.user_input ∧ a.story_text = b.story_text ∧ a.analysis = b.analysis
  ∧ a.image_concept = b.image_concept ∧ a.audio_script = b.audio_script
  ∧ a.translations = b.translations ∧ a.formatted_output = b.formatted_output
  ∧ a.metadata = b.metadata ∧ ∀ k, getk a.timestamps k = getk b.timestamps k

theorem msgEquiv_refl (a : PipelineMessage) : msgEquiv a a :=
  ⟨rfl, rfl, rfl, rfl, rfl, rfl, rfl, rfl, fun _ => rfl⟩

theorem msgEquiv_trans {a b c : PipelineMessage} (h1 : msgEquiv a b) (h2 : msgEquiv b c) :
    msgEquiv a c := by
  obtain ⟨e1, e2, e3, e4, e5, e6, e7, e8, e9⟩ := h1
  obtain ⟨f1, f2, f3, f4, f5, f6, f7, f8, f9⟩ := h2
  exact ⟨e1.trans f1, e2.trans f2, e3.trans f3, e4.trans f4, e5.trans f5, e6.trans f6,
    e7.trans f7, e8.trans f8, fun k => (e9 k).trans (f9 k)⟩

/-- Two results agree on every timestamp key they share. -/
def ts_agree (a b : PipelineMessage) : Prop :=
  ∀ p ∈ a.timestamps, ∀ q ∈ b.timestamps, p.1 = q.1 → p.2 = q.2

/-- Two results never populate the same parallel output field. -/
def fields_disjoint (a b : PipelineMessage) : Prop :=
  (optTruthy a.image_concept = false ∨ optTruthy b.image_concept = false)
  ∧ (optTruthy a.audio_script = false ∨ optTruthy b.audio_script = false)
  ∧ (optTruthy a.translations = false ∨ optTruthy b.translations = false)
  ∧ (optTruthy a.formatted_output = false ∨ optTruthy b.formatted_output = false)

/-- Compatibility of two sub-stage results: disjoint output fields and no
conflicting timestamp entries. -/
def hub_compat (a b : PipelineMessage) : Prop := ts_agree a b ∧ fields_disjoint a b

instance (a b : PipelineMessage) : Decidable (ts_agree a b) := by
  unfold ts_agree
  infer_instance

theorem hub_compat_symm : Symmetric hub_compat := by
  intro a b ⟨hts, h1, h2, h3, h4⟩
  exact ⟨fun p hp q hq he => (hts q hq p hp he.symm).symm,
    h1.symm, h2.symm, h3.symm, h4.symm⟩

theorem orO_comm_of_agree {a b : PipelineMessage} (h : ts_agree a b) (k : String) :
    orO (getk a.timestamps k) (getk b.timestamps k)
      = orO (getk b.timestamps k) (getk a.timestamps k) := by
  cases ha : getk a.timestamps k with
  | none => cases hb : getk b.timestamps k <;> simp [orO]
  | some v =>
    cases hb : getk b.timestamps k with
    | none => simp [orO]
    | some w =>
      have hvw : v = w := h (k, v) (getk_some_mem ha) (k, w) (getk_some_mem hb) rfl
      simp [orO, hvw]

/-- Swapping two compatible merges gives Python-equal messages. -/
theorem hub_merge_swap {a b : PipelineMessage} (m : PipelineMessage)
    (h : hub_compat a b) :
    msgEquiv (hub_merge (hub_merge m a) b) (hub_merge (hub_merge m b) a) := by
  obtain ⟨hts, h1, h2, h3, h4⟩ := h
  refine ⟨rfl, rfl, rfl, ?_, ?_, ?_, ?_, rfl, ?_⟩
  · show (if optTruthy b.image_concept then _ else _) = (if optTruthy a.image_concept then _ else _)
    rcases h1 with h | h <;> simp [hub_merge, h]
  · show (if optTruthy b.audio_script then _ else _) = (if optTruthy a.audio_script then _ else _)
    rcases h2 with h | h <;> simp [hub_merge, h]
  · show (if optTruthy b.translations then _ else _) = (if optTruthy a.translations then _ else _)
    rcases h3 with h | h <;> simp [hub_merge, h]
  · show (if optTruthy b.formatted_output then _ else _)
        = (if optTruthy a.formatted_output then _ else _)
    rcases h4 with h | h <;> simp [hub_merge, h]
  · intro k
    show getk (merge_timestamps (merge_timestamps m.timestamps a.timestamps) b.timestamps) k
        = getk (merge_timestamps (merge_timestamps m.timestamps b.timestamps) a.timestamps) k
    rw [getk_merge_timestamps, getk_merge_timestamps, getk_merge_timestamps,
      getk_merge_timestamps]
    cases hm : getk m.timestamps k with
    | some v => simp [orO]
    | none => simpa [orO] using orO_comm_of_agree hts k

/-- `hub_merge` respects Python equality of the accumulator. -/
theorem hub_merge_congr {m1 m2 : PipelineMessage} (r : PipelineMessage)
    (h : msgEquiv m1 m2) : msgEquiv (hub_merge m1 r) (hub_merge m2 r) := by
  obtain ⟨e1, e2, e3, e4, e5, e6, e7, e8, e9⟩ := h
  refine ⟨e1, e2, e3, ?_, ?_, ?_, ?_, e8, ?_⟩
  · show (if optTruthy r.image_concept then _ else _) = (if optTruthy r.image_concept then _ else _)
    rw [e4]
  · show (if optTruthy r.audio_script then _ else _) = (if optTruthy r.audio_script then _ else _)
    rw [e5]
  · show (if optTruthy r.translations then _ else _) = (if optTruthy r.translations then _ else _)
    rw [e6]
  · show (if optTruthy r.formatted_output then _ else _)
        = (if optTruthy r.formatted_output then _ else _)
    rw [e7]
  · intro k
    show getk (merge_timestamps m1.timestamps r.timestamps) k
        = getk (merge_timestamps m2.timestamps r.timestamps) k
    rw [getk_merge_timestamps, getk_merge_timestamps, e9 k]

theorem merge_results_congr {m1 m2 : PipelineMessage} (rs : List PipelineMessage)
    (h : msgEquiv m1 m2) : msgEquiv (merge_results m1 rs) (merge_results m2 rs) := by
  induction rs generalizing m1 m2 with
  | nil => exact h
  | cons r t ih => exact ih (hub_merge_congr r h)

/-- Merging in any completion order yields Python-equal messages, provided
the results pairwise populate disjoint fields and carry no conflicting
timestamp entries. -/
theorem merge_results_perm {rs rs' : List PipelineMessage} (hp : rs.Perm rs')
    (hc : rs.Pairwise hub_compat) (m : PipelineMessage) :
    msgEquiv (merge_results m rs) (merge_results m rs') := by
  induction hp generalizing m with
  | nil => exact msgEquiv_refl m
  | cons x p ih =>
    exact ih (List.Pairwise.sublist (List.sublist_cons_self x _) hc) (hub_merge m x)
  | swap x y l =>
    have hxy : hub_compat y x := (List.pairwise_cons.mp hc).1 x (by simp)
    exact merge_results_congr l (hub_merge_swap m hxy)
  | trans p1 p2 ih1 ih2 =>
    exact msgEquiv_trans (ih1 hc m)
      (ih2 ((p1.pairwise_iff (fun h => hub_compat_symm h)).mp hc) m)

/-! C3 claim theorems -/

/-- First C3 counterexample result: populates only `image_concept`, carries
a timestamp for `x` with one clock reading. -/
def resC : PipelineMessage :=
  { user_input := "u", image_concept := some (.vdict [("scene", .vstr "s")])
    timestamps := [("x", ⟨"x", some 1, some 2, none⟩)] }

/-- Second C3 counterexample result: populates only `audio_script`, carries
a different record under the same timestamp key `x`. -/
def resD : PipelineMessage :=
  { user_input := "u", audio_script := some (.vdict [("tone", .vstr "t")])
    timestamps := [("x", ⟨"x", some 1, some 2, some 3⟩)] }

/-- C3 (corrected): merging is *not* commutative as claimed.  The two
results populate disjoint output fields (the claim's hypothesis), but they
carry different records under the same timestamp key `x` — realistic for
remote sub-stages that serialize the shared message at different moments —
and "existing wins" then makes the final record depend on completion
order. -/
theorem claim_C3_counterexample :
    fields_disjoint resC resD
    ∧ getk (merge_results msg0 [resC, resD]).timestamps "x" = some ⟨"x", some 1, some 2, none⟩
    ∧ getk (merge_results msg0 [resD, resC]).timestamps "x" = some ⟨"x", some 1, some 2, some 3⟩
    ∧ ¬ msgEquiv (merge_results msg0 [resC, resD]) (merge_results msg0 [resD, resC]) := by
  refine ⟨⟨Or.inr rfl, Or.inl rfl, Or.inl rfl, Or.inl rfl⟩, rfl, rfl, ?_⟩
  intro h
  obtain ⟨-, -, -, -, -, -, -, -, hts⟩ := h
  exact absurd (hts "x") (by decide)

/-- C3 (amended): merging the same sub-stage result twice is literally a
no-op (idempotence holds unconditionally), and merging the completed
results in any permutation of completion order yields a field-for-field
identical message *provided* the results also agree on every timestamp key
they share (which the claim's disjoint-output-field hypothesis alone does
not guarantee). -/
theorem claim_C3_amended :
    (∀ m r : PipelineMessage, hub_merge (hub_merge m r) r = hub_merge m r)
    ∧ (∀ (m : PipelineMessage) (rs rs' : List PipelineMessage), rs.Perm rs' →
        rs.Pairwise hub_compat → msgEquiv (merge_results m rs) (merge_results m rs')) := by
  constructor
  · intro m r
    have hts : merge_timestamps (merge_timestamps m.timestamps r.timestamps) r.timestamps
        = merge_timestamps m.timestamps r.timestamps := by
      apply merge_timestamps_of_present
      intro p hp
      rw [getk_merge_timestamps]
      cases h : getk m.timestamps p.1 with
      | some v => simp [orO]
      | none => simpa [orO] using getk_isSome_of_mem hp
    show hub_merge (hub_merge m r) r = hub_merge m r
    unfold hub_merge
    ext1 <;> simp only
    · by_cases h : optTruthy r.image_concept <;> simp [h]
    · by_cases h : optTruthy r.audio_script <;> simp [h]
    · by_cases h : optTruthy r.translations <;> simp [h]
    · by_cases h : optTruthy r.formatted_output <;> simp [h]
    · exact hts
  · intro m rs rs' hp hc
    exact merge_results_perm hp hc m

/-- Witness for C3 (amended): idempotence at a concrete merge, and a
concrete swap of two compatible results. -/
theorem claim_C3_witness :
    (hub_merge (hub_merge msgDst resC) resC = hub_merge msgDst resC)
    ∧ ([resC, msgSrc].Perm [msgSrc, resC])
    ∧ ([resC, msgSrc].Pairwise hub_compat)
    ∧ msgEquiv (merge_results msg0 [resC, msgSrc]) (merge_results msg0 [msgSrc, resC]) :=
  ⟨claim_C3_amended.1 msgDst resC, List.Perm.swap msgSrc resC [],
    by
      refine List.Pairwise.cons ?_ (List.Pairwise.cons (by simp) List.Pairwise.nil)
      intro b hb
      simp only [List.mem_singleton] at hb
      subst hb
      exact ⟨by decide, Or.inr rfl, Or.inl rfl, Or.inl rfl, Or.inl rfl⟩,
    claim_C3_amended.2 msg0 [resC, msgSrc] [msgSrc, resC] (List.Perm.swap msgSrc resC [])
      (by
        refine List.Pairwise.cons ?_ (List.Pairwise.cons (by simp) List.Pairwise.nil)
        intro b hb
        simp only [List.mem_singleton] at hb
        subst hb
        exact ⟨by decide, Or.inr rfl, Or.inl rfl, Or.inl rfl, Or.inl rfl⟩)⟩

/-! ### C10 — runner completion mark lands on the returned message -/

theorem mark_completed_fresh (m : PipelineMessage) (name : String) (c : Clk)
    (h : getk m.timestamps name = none) :
    getk (mark_completed m name c).1.timestamps name
      = some ⟨name, none, none, some (c.f c.i)⟩ := by
  simp [mark_completed, Clk.now, add_timestamp, h, getk_setk_self]

/-- C10 (confirmed): when a registered stage returns a message that lacks
the input's timestamp record for that stage, `mark_completed` is applied to
the *returned* message and creates a fresh record there, so the final
record has `completed_at` set but no `received_at`/`started_at`: the
receipt and start stamps made on the input message are silently lost. -/
theorem claim_C10 (services : List (String × (PipelineMessage → PipelineMessage)))
    (name : String) (f : PipelineMessage → PipelineMessage) (m : PipelineMessage) (c : Clk)
    (hreg : getk services name = some f)
    (hfresh : ∀ x, getk (f x).timestamps name = none) :
    ∃ t, getk (execute_pipeline services m [name] c).1.timestamps name
        = some ⟨name, none, none, some t⟩ := by
  simp only [execute_pipeline, hreg]
  exact ⟨_, mark_completed_fresh _ _ _ (hfresh _)⟩

/-- Registry for the C10 witness: the stage returns a fresh message with
empty timestamps (as a remote stub that rebuilds the message might). -/
def regC10 : List (String × (PipelineMessage → PipelineMessage)) :=
  [("s", fun _ => { user_input := "fresh" })]

/-- Witness for C10 at a concrete registry, message and clock. -/
theorem claim_C10_witness :
    ∃ t, getk (execute_pipeline regC10 msg0 ["s"] clk0).1.timestamps "s"
        = some ⟨"s", none, none, some t⟩ :=
  claim_C10 regC10 "s" (fun _ => { user_input := "fresh" }) msg0 clk0 rfl (fun _ => rfl)

/-! ### C7 — timestamp monotonicity and emitted duration -/

/-- `datetime.fromtimestamp(t).isoformat()`: the human-readable rendering
of an instant, abstracted to an injective textual form (no claim inspects
its content and decoding ignores it). -/
def isoformat (t : Int) : String := "iso:" ++ toString t

/-- `TimestampRecord.to_dict` from `core/message.py`: formatted and epoch
values for each truthy instant, plus `duration_ms` when both start and end
are truthy.  At the integer clock resolution `round(x, 2)` is the
identity, so `duration_ms` is `(end - start) * 1000` exactly. -/
def TimestampRecord.to_dict (r : TimestampRecord) : Val :=
  .vdict ([("service_name", .vstr r.service_name)]
    ++ (if truthyTime r.received_time then
          [("received", .vstr (isoformat (r.received_time.getD 0))),
           ("received_timestamp", .vint (r.received_time.getD 0))]
        else [])
    ++ (if truthyTime r.start_time then
          [("started", .vstr (isoformat (r.start_time.getD 0))),
           ("started_timestamp", .vint (r.start_time.getD 0))]
        else [])
    ++ (if truthyTime r.end_time then
          [("completed", .vstr (isoformat (r.end_time.getD 0))),
           ("completed_timestamp", .vint (r.end_time.getD 0))]
        else [])
    ++ (if truthyTime r.start_time && truthyTime r.end_time then
          [("duration_ms", .vint ((r.end_time.getD 0 - r.start_time.getD 0) * 1000))]
        else []))

/-- C7 (confirmed): marking a stage received → started → completed in that
order under a nondecreasing positive clock yields a record with
`received_at ≤ started_at ≤ completed_at`, and its dictionary form emits
`duration_ms = (completed_at - started_at) * 1000 ≥ 0`. -/
theorem claim_C7 (m : PipelineMessage) (name : String) (c : Clk)
    (hmono : ∀ i j, i ≤ j → c.f i ≤ c.f j) (hpos : ∀ i, 0 < c.f i) :
    ∃ r, getk (mark_completed
          (mark_started (mark_received m name c).1 name (mark_received m name c).2).1 name
          (mark_started (mark_received m name c).1 name (mark_received m name c).2).2).1.timestamps
          name = some r
      ∧ r.received_time = some (c.f c.i)
      ∧ r.start_time = some (c.f (c.i + 1))
      ∧ r.end_time = some (c.f (c.i + 2))
      ∧ c.f c.i ≤ c.f (c.i + 1) ∧ c.f (c.i + 1) ≤ c.f (c.i + 2)
      ∧ pyGet r.to_dict "duration_ms" = .vint ((c.f (c.i + 2) - c.f (c.i + 1)) * 1000)
      ∧ 0 ≤ (c.f (c.i + 2) - c.f (c.i + 1)) * 1000 := by
  have hr : (c.f c.i != 0) = true := by
    simp [bne_iff_ne]
    exact (hpos c.i).ne'
  have hs : (c.f (c.i + 1) != 0) = true := by
    simp [bne_iff_ne]
    exact (hpos (c.i + 1)).ne'
  have he : (c.f (c.i + 2) != 0) = true := by
    simp [bne_iff_ne]
    exact (hpos (c.i + 2)).ne'
  refine ⟨{ service_name := (add_timestamp m name).service_name,
            received_time := some (c.f c.i),
            start_time := some (c.f (c.i + 1)),
            end_time := some (c.f (c.i + 2)) },
    ?_, rfl, rfl, rfl, hmono _ _ (by omega), hmono _ _ (by omega), ?_, ?_⟩
  · simp only [mark_received, mark_started, mark_completed, Clk.now, add_timestamp,
      getk_setk_self, Option.getD_some, truthyTime, hr, if_true, getk_setk_self]
  · simp only [TimestampRecord.to_dict, truthyTime, hs, he, Bool.and_self, if_true,
      Option.getD_some, pyGet]
    simp [getk_append, getk, orO, (hpos c.i).ne']
  · have := hmono (c.i + 1) (c.i + 2) (by omega)
    omega

/-- Witness for C7 using the concrete increasing positive clock. -/
theorem claim_C7_witness :
    ∃ r, getk (mark_completed
          (mark_started (mark_received msg0 "s" clk0).1 "s" (mark_received msg0 "s" clk0).2).1 "s"
          (mark_started (mark_received msg0 "s" clk0).1 "s"
            (mark_received msg0 "s" clk0).2).2).1.timestamps "s" = some r
      ∧ r.received_time = some (clk0.f clk0.i)
      ∧ r.start_time = some (clk0.f (clk0.i + 1))
      ∧ r.end_time = some (clk0.f (clk0.i + 2))
      ∧ clk0.f clk0.i ≤ clk0.f (clk0.i + 1) ∧ clk0.f (clk0.i + 1) ≤ clk0.f (clk0.i + 2)
      ∧ pyGet r.to_dict "duration_ms"
          = .vint ((clk0.f (clk0.i + 2) - clk0.f (clk0.i + 1)) * 1000)
      ∧ 0 ≤ (clk0.f (clk0.i + 2) - clk0.f (clk0.i + 1)) * 1000 :=
  claim_C7 msg0 "s" clk0
    (by
      intro i j hij
      simp only [clk0]
      omega)
    (by
      intro i
      simp only [clk0]
      omega)

/-! ### C8 — text-RPC server error handling (`core/rpc.py::_RPCHandler.handle`) -/

/-- Python attribute access `data.get(k)`: on a dict, the value or `None`;
on any other JSON value it raises `AttributeError`. -/
def pyGetE : Val → String → Except String Val
  | .vdict xs, k => .ok ((getk xs k).getD .vnull)
  | _, _ => .error "AttributeError"

/-- One request/response exchange of `_RPCHandler.handle` for a non-empty
inbound line.  `parsed` is the outcome of `json.loads` on the line
(`json.loads` itself is a library oracle); `handler` is the injected
handler, with a raised exception modelled as `Except.error (str e)`.
The result is the response line written back, or `none` when an exception
escapes `handle` and the connection closes with no response — which
happens exactly when `data.get` raises in the second `try` *and* again at
`data.get("id")` inside its `except` block (a valid-JSON non-dict line);
for dict-shaped `data` the `id` lookup never raises and those branches
are dead. -/
def handle_line (handler : Val → Except String Val) (parsed : Except String Val) :
    Option Val :=
  match parsed with
  | .error e => some (.vdict [("id", .vnull), ("error", .vstr ("invalid_json: " ++ e))])
  | .ok data =>
    match pyGetE data "params" with
    | .error e =>
      match pyGetE data "id" with
      | .ok idv => some (.vdict [("id", idv), ("error", .vstr e)])
      | .error _ => none
    | .ok params =>
      match handler params with
      | .ok result =>
        match pyGetE data "id" with
        | .ok idv => some (.vdict [("id", idv), ("result", result)])
        | .error _ => none
      | .error e =>
        match pyGetE data "id" with
        | .ok idv => some (.vdict [("id", idv), ("error", .vstr e)])
        | .error _ => none

/-- The uncollapsed error path: a valid-JSON non-dict line makes
`data.get` raise in both the `try` and the `except`, so the exception
escapes `handle` and the connection closes with no response. -/
theorem handle_line_nondict (handler : Val → Except String Val) :
    handle_line handler (.ok (.vint 5)) = none := rfl

/-- C8 (confirmed): a line that is not valid JSON gets the
`{id: null, error: "invalid_json: ..."}` response rather than a silent
close, and an exception raised by the injected handler — which only runs
once the request decoded to a dict — gets `{id, error: str(e)}`; in both
of these cases a response line is written, so neither closes the
connection without a response nor crashes the process.  (A valid-JSON
non-dict line falls outside both cases: there `data.get` raises in the
`try` and again in the `except`, and the connection closes with no
response — `handle_line_nondict`.) -/
theorem claim_C8 (handler : Val → Except String Val) (parsed : Except String Val) :
    (∀ e, parsed = .error e →
        handle_line handler parsed
          = some (.vdict [("id", .vnull), ("error", .vstr ("invalid_json: " ++ e))]))
    ∧ (∀ xs e, parsed = .ok (.vdict xs) →
        handler ((getk xs "params").getD .vnull) = .error e →
        handle_line handler parsed
          = some (.vdict [("id", (getk xs "id").getD .vnull), ("error", .vstr e)]))
    ∧ (∀ e, parsed = .error e → (handle_line handler parsed).isSome = true)
    ∧ (∀ xs e, parsed = .ok (.vdict xs) →
        handler ((getk xs "params").getD .vnull) = .error e →
        (handle_line handler parsed).isSome = true) := by
  refine ⟨?_, ?_, ?_, ?_⟩
  · intro e he
    rw [he]
    rfl
  · intro xs e hd hh
    rw [hd]
    simp only [handle_line, pyGetE, hh]
  · intro e he
    rw [he]
    rfl
  · intro xs e hd hh
    rw [hd]
    simp only [handle_line, pyGetE, hh, Option.isSome_some]

/-- Witness for C8: a concrete malformed line and a concrete raising
handler on a concrete dict-shaped request. -/
theorem claim_C8_witness :
    (handle_line (fun _ => .error "boom") (.error "Expecting value")
        = some (.vdict [("id", .vnull),
            ("error", .vstr ("invalid_json: " ++ "Expecting value"))]))
    ∧ (handle_line (fun _ => .error "boom")
          (.ok (.vdict [("id", .vint 1), ("params", .vdict [("user_input", .vstr "u")])]))
        = some (.vdict [("id", (getk [("id", Val.vint 1),
              ("params", .vdict [("user_input", .vstr "u")])] "id").getD .vnull),
            ("error", .vstr "boom")])) :=
  ⟨(claim_C8 (fun _ => .error "boom") (.error "Expecting value")).1 "Expecting value" rfl,
    (claim_C8 (fun _ => .error "boom")
        (.ok (.vdict [("id", .vint 1), ("params", .vdict [("user_input", .vstr "u")])]))).2.1
      [("id", .vint 1), ("params", .vdict [("user_input", .vstr "u")])] "boom" rfl rfl⟩

/-! ### C4 — parallel hub fault isolation (`service_c_parallel_hub.py`) -/

/-- A sub-stage binding: a local callable (whose raise propagates out of
its future) or a remote call (whose failure is caught and degraded). -/
inductive Target where
  | loc : (PipelineMessage → Except String PipelineMessage) → Target
  | remote : (PipelineMessage → Except String PipelineMessage) → Target

/-- `execute_with_tracking` (hub lines 69–96): mark received/started, run
the target — a failing remote call is logged and the input message (with
its marks) becomes the output; a raising local callable propagates as the
future's exception — then mark completion on the *returned* message. -/
def execute_with_tracking (service_name : String) (t : Target) (msg : PipelineMessage)
    (c : Clk) : Except String PipelineMessage × Clk :=
  let s := mark_started (mark_received msg service_name c).1 service_name
      (mark_received msg service_name c).2
  match t with
  | .remote call =>
    let result := match call s.1 with
      | .ok r => r
      | .error _ => s.1
    (.ok (mark_completed result service_name s.2).1, (mark_completed result service_name s.2).2)
  | .loc f =>
    match f s.1 with
    | .error e => (.error e, s.2)
    | .ok r => (.ok (mark_completed r service_name s.2).1, (mark_completed r service_name s.2).2)

/-- Concurrent dispatch of the sub-stages, sequentialized: every sub-stage
receives the shared message as it stood at hub start (`m0`); the clock
threads through the workers' `time.time()` calls in dispatch order. -/
def dispatch (m0 : PipelineMessage) : List (String × Target) → Clk →
    List (Except String PipelineMessage) × Clk
  | [], c => ([], c)
  | p :: rest, c =>
    ((execute_with_tracking p.1 p.2 m0 c).1
        :: (dispatch m0 rest (execute_with_tracking p.1 p.2 m0 c).2).1,
      (dispatch m0 rest (execute_with_tracking p.1 p.2 m0 c).2).2)

/-- The `as_completed` collection loop in completion order `order`
(indices into the outcome list): a future that raised is logged and
skipped, a successful result is merged. -/
def collect (outcomes : List (Except String PipelineMessage)) :
    List Nat → PipelineMessage → PipelineMessage
  | [], m => m
  | i :: rest, m =>
    collect outcomes rest
      (match outcomes.get? i with
        | some (.ok r) => hub_merge m r
        | _ => m)

/-- `process_service_c` (lines 16–128): mark hub start, dispatch the four
sub-stages against the hub-start snapshot, merge the results in completion
order, mark hub completion.  Nondeterministic completion order is the
`order` parameter. -/
def process_service_c (parallel_services : List (String × Target)) (order : List Nat)
    (message : PipelineMessage) (c : Clk) : PipelineMessage × Clk :=
  let m0 := (mark_started message "service_c_parallel_hub" c).1
  let c0 := (mark_started message "service_c_parallel_hub" c).2
  let outcomes := (dispatch m0 parallel_services c0).1
  let c1 := (dispatch m0 parallel_services c0).2
  mark_completed (collect outcomes order m0) "service_c_parallel_hub" c1

/-- The parallel output field owned by each sub-stage. -/
def hubField : Fin 4 → PipelineMessage → Option Val
  | ⟨0, _⟩, m => m.image_concept
  | ⟨1, _⟩, m => m.audio_script
  | ⟨2, _⟩, m => m.translations
  | ⟨3, _⟩, m => m.formatted_output
  | ⟨n + 4, h⟩, _ => absurd h (by omega)

/-- The four sub-stage names in dispatch order. -/
def subName : Fin 4 → String
  | ⟨0, _⟩ => "service_c1_image_concept"
  | ⟨1, _⟩ => "service_c2_audio_script"
  | ⟨2, _⟩ => "service_c3_translation"
  | ⟨3, _⟩ => "service_c4_formatting"
  | ⟨n + 4, h⟩ => absurd h (by omega)

/-- The hub's fixed dispatch list for a choice of four targets. -/
def hubTargets (t : Fin 4 → Target) : List (String × Target) :=
  [(subName 0, t 0), (subName 1, t 1), (subName 2, t 2), (subName 3, t 3)]

/-- The target always fails (local raise, or remote failure/timeout). -/
def target_fails : Target → Prop
  | .loc f => ∀ x, ∃ e, f x = .error e
  | .remote call => ∀ x, ∃ e, call x = .error e

/-- The target succeeds on every input, populates its own output field,
and leaves the other parallel output fields as they were (spec §6 stage
contract). -/
def target_ok (j : Fin 4) : Target → Prop
  | .loc f => ∀ x, ∃ r, f x = .ok r ∧ optTruthy (hubField j r) = true
      ∧ ∀ i, i ≠ j → hubField i r = hubField i x
  | .remote call => ∀ x, ∃ r, call x = .ok r ∧ optTruthy (hubField j r) = true
      ∧ ∀ i, i ≠ j → hubField i r = hubField i x

theorem hubField_mark_received (i : Fin 4) (m : PipelineMessage) (n : String) (c : Clk) :
    hubField i (mark_received m n c).1 = hubField i m := by
  fin_cases i <;> rfl

theorem mark_started_eq (m : PipelineMessage) (n : String) (c : Clk) :
    ∃ ts c', mark_started m n c = ({ m with timestamps := ts }, c') := by
  unfold mark_started
  by_cases h : truthyTime (add_timestamp m n).received_time
  · simp only [h, if_true]
    exact ⟨_, _, rfl⟩
  · simp only [h, if_false]
    exact ⟨_, _, rfl⟩

theorem hubField_mark_started (i : Fin 4) (m : PipelineMessage) (n : String) (c : Clk) :
    hubField i (mark_started m n c).1 = hubField i m := by
  obtain ⟨ts, c', h⟩ := mark_started_eq m n c
  rw [h]
  fin_cases i <;> rfl

theorem hubField_mark_completed (i : Fin 4) (m : PipelineMessage) (n : String) (c : Clk) :
    hubField i (mark_completed m n c).1 = hubField i m := by
  fin_cases i <;> rfl

theorem hubField_hub_merge (i : Fin 4) (a r : PipelineMessage) :
    hubField i (hub_merge a r)
      = if optTruthy (hubField i r) then hubField i r else hubField i a := by
  fin_cases i <;> rfl

/-- A successful target's tracked execution returns its populated result. -/
theorem ewt_ok {j : Fin 4} {tg : Target} (hok : target_ok j tg) (name : String)
    (msg : PipelineMessage) (c : Clk) :
    ∃ r, (execute_with_tracking name tg msg c).1 = .ok r
      ∧ optTruthy (hubField j r) = true
      ∧ ∀ i, i ≠ j → hubField i r = hubField i msg := by
  cases tg with
  | loc f =>
    obtain ⟨r, hf, htr, hpres⟩ := hok
      ((mark_started (mark_received msg name c).1 name (mark_received msg name c).2).1)
    refine ⟨(mark_completed r name
        (mark_started (mark_received msg name c).1 name (mark_received msg name c).2).2).1,
      ?_, ?_, ?_⟩
    · simp only [execute_with_tracking, hf]
    · rw [hubField_mark_completed]
      exact htr
    · intro i hi
      rw [hubField_mark_completed, hpres i hi, hubField_mark_started, hubField_mark_received]
  | remote call =>
    obtain ⟨r, hf, htr, hpres⟩ := hok
      ((mark_started (mark_received msg name c).1 name (mark_received msg name c).2).1)
    refine ⟨(mark_completed r name
        (mark_started (mark_received msg name c).1 name (mark_received msg name c).2).2).1,
      ?_, ?_, ?_⟩
    · simp only [execute_with_tracking, hf]
    · rw [hubField_mark_completed]
      exact htr
    · intro i hi
      rw [hubField_mark_completed, hpres i hi, hubField_mark_started, hubField_mark_received]

/-- A failing target's tracked execution either surfaces the exception
(local raise) or degrades to the marked input message (remote failure). -/
theorem ewt_fail {tg : Target} (hfail : target_fails tg) (name : String)
    (msg : PipelineMessage) (c : Clk) :
    (∃ e, (execute_with_tracking name tg msg c).1 = .error e)
    ∨ (∃ r, (execute_with_tracking name tg msg c).1 = .ok r
        ∧ ∀ i, hubField i r = hubField i msg) := by
  cases tg with
  | loc f =>
    obtain ⟨e, he⟩ := hfail
      ((mark_started (mark_received msg name c).1 name (mark_received msg name c).2).1)
    exact Or.inl ⟨e, by simp only [execute_with_tracking, he]⟩
  | remote call =>
    obtain ⟨e, he⟩ := hfail
      ((mark_started (mark_received msg name c).1 name (mark_received msg name c).2).1)
    refine Or.inr ⟨(mark_completed
        (mark_started (mark_received msg name c).1 name (mark_received msg name c).2).1 name
        (mark_started (mark_received msg name c).1 name (mark_received msg name c).2).2).1,
      by simp only [execute_with_tracking, he], ?_⟩
    intro i
    rw [hubField_mark_completed, hubField_mark_started, hubField_mark_received]

theorem collect_truthy_mono (outcomes : List (Except String PipelineMessage))
    (order : List Nat) (j : Fin 4) (acc : PipelineMessage)
    (h : optTruthy (hubField j acc) = true) :
    optTruthy (hubField j (collect outcomes order acc)) = true := by
  induction order generalizing acc with
  | nil => exact h
  | cons i rest ih =>
    show optTruthy (hubField j (collect outcomes rest _)) = true
    cases hg : outcomes.get? i with
    | none =>
      simp only [hg]
      exact ih _ h
    | some o =>
      cases o with
      | error e =>
        simp only [hg]
        exact ih _ h
      | ok r =>
        simp only [hg]
        apply ih
        rw [hubField_hub_merge]
        by_cases hr : optTruthy (hubField j r) <;> simp [hr, h]

theorem collect_hit (outcomes : List (Except String PipelineMessage)) (order : List Nat)
    (j : Fin 4) (acc : PipelineMessage) (i : Nat) (r : PipelineMessage)
    (hi : i ∈ order) (hg : outcomes.get? i = some (.ok r))
    (hr : optTruthy (hubField j r) = true) :
    optTruthy (hubField j (collect outcomes order acc)) = true := by
  induction order generalizing acc with
  | nil => simp at hi
  | cons i0 rest ih =>
    show optTruthy (hubField j (collect outcomes rest _)) = true
    rcases List.mem_cons.mp hi with h0 | h0
    · subst h0
      simp only [hg]
      exact collect_truthy_mono _ _ _ _ (by simp [hubField_hub_merge, hr])
    · cases hg0 : outcomes.get? i0 with
      | none =>
        simp only [hg0]
        exact ih _ h0
      | some o =>
        cases o with
        | error e =>
          simp only [hg0]
          exact ih _ h0
        | ok r0 =>
          simp only [hg0]
          exact ih _ h0

theorem collect_keep (outcomes : List (Except String PipelineMessage)) (order : List Nat)
    (k : Fin 4) (acc : PipelineMessage)
    (h : ∀ i ∈ order, ∀ r, outcomes.get? i = some (.ok r) →
        optTruthy (hubField k r) = false) :
    hubField k (collect outcomes order acc) = hubField k acc := by
  induction order generalizing acc with
  | nil => rfl
  | cons i0 rest ih =>
    show hubField k (collect outcomes rest _) = hubField k acc
    cases hg0 : outcomes.get? i0 with
    | none =>
      simp only [hg0]
      exact ih _ (fun i hi => h i (List.mem_cons_of_mem _ hi))
    | some o =>
      cases o with
      | error e =>
        simp only [hg0]
        exact ih _ (fun i hi => h i (List.mem_cons_of_mem _ hi))
      | ok r0 =>
        simp only [hg0]
        rw [ih _ (fun i hi => h i (List.mem_cons_of_mem _ hi)),
          hubField_hub_merge, h i0 (by simp) r0 hg0]
        simp

theorem mark_completed_mark (m : PipelineMessage) (n : String) (c : Clk) :
    ∃ r, getk (mark_completed m n c).1.timestamps n = some r
      ∧ r.end_time = some (c.f c.i) :=
  ⟨{ add_timestamp m n with end_time := some (c.f c.i) },
    by simp [mark_completed, Clk.now, getk_setk_self], rfl⟩

theorem process_service_c_def (ps : List (String × Target)) (order : List Nat)
    (m : PipelineMessage) (c : Clk) :
    process_service_c ps order m c
      = mark_completed
          (collect (dispatch (mark_started m "service_c_parallel_hub" c).1 ps
              (mark_started m "service_c_parallel_hub" c).2).1 order
            (mark_started m "service_c_parallel_hub" c).1)
          "service_c_parallel_hub"
          (dispatch (mark_started m "service_c_parallel_hub" c).1 ps
            (mark_started m "service_c_parallel_hub" c).2).2 := rfl

theorem dispatch_get (m0 : PipelineMessage) (t : Fin 4 → Target) (c0 : Clk) (j : Fin 4) :
    ∃ cc, (dispatch m0 (hubTargets t) c0).1.get? (j : Nat)
        = some ((execute_with_tracking (subName j) (t j) m0 cc).1) := by
  fin_cases j
  · exact ⟨c0, rfl⟩
  · exact ⟨_, rfl⟩
  · exact ⟨_, rfl⟩
  · exact ⟨_, rfl⟩

/-- C4 (confirmed): if exactly one of the four sub-stages fails — a local
raise or a failing/timing-out remote call — while the other three succeed
and populate their own fields, then the hub completes without raising:
the three survivors' output fields are truthy on the returned message, the
failed sub-stage's field is exactly the (unset) input field, and the hub's
own completion timestamp is set. -/
theorem claim_C4 (t : Fin 4 → Target) (k : Fin 4) (order : List Nat)
    (m : PipelineMessage) (c : Clk)
    (horder : order.Perm [0, 1, 2, 3])
    (hfail : target_fails (t k))
    (hok : ∀ j, j ≠ k → target_ok j (t j))
    (hunset : optTruthy (hubField k m) = false) :
    (∀ j, j ≠ k →
        optTruthy (hubField j (process_service_c (hubTargets t) order m c).1) = true)
    ∧ hubField k (process_service_c (hubTargets t) order m c).1 = hubField k m
    ∧ ∃ r, getk (process_service_c (hubTargets t) order m c).1.timestamps
        "service_c_parallel_hub" = some r ∧ r.end_time.isSome := by
  rw [process_service_c_def]
  set M0 := (mark_started m "service_c_parallel_hub" c).1 with hM0
  set C0 := (mark_started m "service_c_parallel_hub" c).2 with hC0
  set OUT := (dispatch M0 (hubTargets t) C0).1 with hOUT
  set C1 := (dispatch M0 (hubTargets t) C0).2 with hC1
  have hM0field : ∀ i : Fin 4, hubField i M0 = hubField i m := by
    intro i
    rw [hM0, hubField_mark_started]
  refine ⟨?_, ?_, ?_⟩
  · intro j hj
    rw [hubField_mark_completed]
    obtain ⟨cc, hcc⟩ := dispatch_get M0 t C0 j
    obtain ⟨r, hro, htr, _⟩ := ewt_ok (hok j hj) (subName j) M0 cc
    refine collect_hit _ _ _ _ (j : Nat) r ?_ ?_ htr
    · exact horder.mem_iff.mpr (by fin_cases j <;> decide)
    · rw [← hOUT] at hcc
      rw [hcc, hro]
  · rw [hubField_mark_completed]
    have hkeep : hubField k (collect OUT order M0) = hubField k M0 := by
      apply collect_keep
      intro i hi r hg
      have hi4 : i < 4 := by
        have hmem := horder.mem_iff.mp hi
        simp at hmem
        omega
      obtain ⟨cc, hcc⟩ := dispatch_get M0 t C0 ⟨i, hi4⟩
      have hcc' : OUT.get? i
          = some ((execute_with_tracking (subName ⟨i, hi4⟩) (t ⟨i, hi4⟩) M0 cc).1) := by
        rw [hOUT]
        exact hcc
      rw [hcc'] at hg
      injection hg with hg
      by_cases hik : (⟨i, hi4⟩ : Fin 4) = k
      · have hfail' : target_fails (t ⟨i, hi4⟩) := by
          rw [hik]
          exact hfail
        rcases ewt_fail hfail' (subName ⟨i, hi4⟩) M0 cc with ⟨e, he⟩ | ⟨r', hr', hpay⟩
        · rw [he] at hg
          cases hg
        · rw [hr'] at hg
          injection hg with hg
          rw [← hg, hpay k, hM0field k]
          exact hunset
      · obtain ⟨r', hr', _, hpres⟩ := ewt_ok (hok ⟨i, hi4⟩ hik) (subName ⟨i, hi4⟩) M0 cc
        rw [hr'] at hg
        injection hg with hg
        rw [← hg, hpres k (fun hh => hik hh.symm), hM0field k]
        exact hunset
    rw [hkeep]
    exact hM0field k
  · obtain ⟨r, hr1, hr2⟩ := mark_completed_mark (collect OUT order M0) "service_c_parallel_hub" C1
    refine ⟨r, hr1, ?_⟩
    rw [hr2]
    rfl

/-- Concrete targets for the C4 witness: three succeeding local sub-stages
and one failing remote call (C3, the translation stage). -/
def tW : Fin 4 → Target
  | ⟨0, _⟩ => .loc (fun x => .ok { x with image_concept := some (.vdict [("scene", .vstr "s")]) })
  | ⟨1, _⟩ => .loc (fun x => .ok { x with audio_script := some (.vdict [("tone", .vstr "calm")]) })
  | ⟨2, _⟩ => .remote (fun _ => .error "timeout")
  | ⟨3, _⟩ => .loc (fun x => .ok { x with formatted_output := some (.vdict [("html", .vstr "h")]) })
  | ⟨n + 4, h⟩ => absurd h (by omega)

/-- Witness for C4: concrete targets, an out-of-dispatch completion order,
and the concrete clock. -/
theorem claim_C4_witness :
    (∀ j, j ≠ (2 : Fin 4) →
        optTruthy (hubField j (process_service_c (hubTargets tW) [3, 0, 2, 1] msg0 clk0).1)
          = true)
    ∧ hubField 2 (process_service_c (hubTargets tW) [3, 0, 2, 1] msg0 clk0).1
        = hubField 2 msg0
    ∧ ∃ r, getk (process_service_c (hubTargets tW) [3, 0, 2, 1] msg0 clk0).1.timestamps
        "service_c_parallel_hub" = some r ∧ r.end_time.isSome :=
  claim_C4 tW 2 [3, 0, 2, 1] msg0 clk0
    (by decide)
    (by
      intro x
      exact ⟨"timeout", rfl⟩)
    (by
      intro j hj
      fin_cases j
      · intro x
        refine ⟨_, rfl, rfl, ?_⟩
        intro i hi
        fin_cases i
        · exact absurd rfl hi
        · rfl
        · rfl
        · rfl
      · intro x
        refine ⟨_, rfl, rfl, ?_⟩
        intro i hi
        fin_cases i
        · rfl
        · exact absurd rfl hi
        · rfl
        · rfl
      · exact absurd rfl hj
      · intro x
        refine ⟨_, rfl, rfl, ?_⟩
        intro i hi
        fin_cases i
        · rfl
        · rfl
        · rfl
        · exact absurd rfl hi)
    rfl

/-! ### C2 — dictionary-form codec (`core/message.py::to_dict` / `from_dict`) -/

/-- Python `str.split()`: split on whitespace runs, dropping empty pieces. -/
def pySplit (s : String) : List String :=
  (s.split fun c => c.isWhitespace).filter (fun w => w != "")

/-- The `"story"` entry of `to_dict`: present only when `story_text` is
truthy, carrying the text and its whitespace word count. -/
def storySeg (m : PipelineMessage) : List (String × Val) :=
  match m.story_text with
  | some s =>
    if s != "" then
      [("story", .vdict [("text", .vstr s), ("word_count", .vint ((pySplit s).length : Int))])]
    else []
  | none => []

/-- A `to_dict` entry for one optional structured field: present only when
the field is truthy. -/
def optSeg (key : String) (v : Option Val) : List (String × Val) :=
  if optTruthy v then [(key, v.getD .vnull)] else []

/-- The `"metadata"` entry of `to_dict` (present only when non-empty). -/
def metaSeg (m : PipelineMessage) : List (String × Val) :=
  if m.metadata.isEmpty then [] else [("metadata", .vdict m.metadata)]

/-- The `"total_duration_ms"` entry: `(max end − min start) * 1000` over
the truthy instants, when both lists are non-empty. -/
def totalSeg (ts : List (String × TimestampRecord)) : List (String × Val) :=
  let ends := ts.filterMap fun p => if truthyTime p.2.end_time then p.2.end_time else none
  let starts := ts.filterMap fun p => if truthyTime p.2.start_time then p.2.start_time else none
  match starts, ends with
  | s0 :: st, e0 :: et =>
    [("total_duration_ms", .vint ((et.foldl max e0 - st.foldl min s0) * 1000))]
  | _, _ => []

/-- `PipelineMessage.to_dict`: the dictionary wire form. -/
def PipelineMessage.to_dict (m : PipelineMessage) : Val :=
  .vdict ([("user_input", .vstr m.user_input),
      ("timestamps", .vdict (m.timestamps.map fun p => (p.1, p.2.to_dict)))]
    ++ storySeg m
    ++ optSeg "analysis" m.analysis
    ++ optSeg "image_concept" m.image_concept
    ++ optSeg "audio_script" m.audio_script
    ++ optSeg "translations" m.translations
    ++ optSeg "formatted_output" m.formatted_output
    ++ metaSeg m
    ++ totalSeg m.timestamps)

/-- Python `None` marks an absent optional value. -/
def optVal : Val → Option Val
  | .vnull => none
  | v => some v

/-- Typed reading of an epoch-number slot (non-numeric dynamic values fall
outside the typed model and read as absent). -/
def asOptInt : Val → Option Int
  | .vint n => some n
  | _ => none

/-- One iteration of the `from_dict` timestamp loop: a dict-shaped entry
is decoded from its three epoch-number keys; any other shape raises inside
the `try` and is skipped. -/
def ts_step (acc : List (String × TimestampRecord)) (p : String × Val) :
    List (String × TimestampRecord) :=
  match p.2 with
  | .vdict _ => setk acc p.1 ⟨p.1, asOptInt (pyGet p.2 "received_timestamp"),
      asOptInt (pyGet p.2 "started_timestamp"), asOptInt (pyGet p.2 "completed_timestamp")⟩
  | _ => acc

/-- Reconstructing the timestamp map from its dictionary form. -/
def decode_ts (xs : List (String × Val)) : List (String × TimestampRecord) :=
  xs.foldl ts_step []

/-- `PipelineMessage.from_dict`: reconstruct a message from the dictionary
form, special-casing the nested `{"story": {"text": ...}}` shape. -/
def PipelineMessage.from_dict (data : Val) : PipelineMessage :=
  { user_input := match pyGet data "user_input" with | .vstr s => s | _ => ""
    story_text :=
      match pyOr (pyGet data "story_text")
          (pyAnd (pyGet data "story") (pyGet (pyGet data "story") "text")) with
      | .vstr s => some s
      | _ => none
    analysis := optVal (pyGet data "analysis")
    image_concept := optVal (pyGet data "image_concept")
    audio_script := optVal (pyGet data "audio_script")
    translations := optVal (pyGet data "translations")
    formatted_output := optVal (pyGet data "formatted_output")
    metadata := match pyGet data "metadata" with | .vdict xs => xs | _ => []
    timestamps := decode_ts (match pyGet data "timestamps" with | .vdict xs => xs | _ => []) }

/-! Per-key lookup lemmas over the `to_dict` segments. -/

theorem getk_storySeg_ne (m : PipelineMessage) (k : String) (h : k ≠ "story") :
    getk (storySeg m) k = none := by
  unfold storySeg
  cases m.story_text with
  | none => rfl
  | some s =>
    by_cases hs : (s != "") = true <;> simp [hs, getk, Ne.symm h]

theorem getk_optSeg_ne (key k : String) (v : Option Val) (h : key ≠ k) :
    getk (optSeg key v) k = none := by
  unfold optSeg
  by_cases ht : optTruthy v <;> simp [ht, getk, h]

theorem getk_optSeg_self (key : String) (v : Option Val) :
    getk (optSeg key v) key = if optTruthy v then some (v.getD .vnull) else none := by
  unfold optSeg
  by_cases ht : optTruthy v <;> simp [ht, getk]

theorem getk_metaSeg_ne (m : PipelineMessage) (k : String) (h : k ≠ "metadata") :
    getk (metaSeg m) k = none := by
  unfold metaSeg
  by_cases he : m.metadata.isEmpty <;> simp [he, getk, Ne.symm h]

theorem getk_totalSeg_ne (ts : List (String × TimestampRecord)) (k : String)
    (h : k ≠ "total_duration_ms") : getk (totalSeg ts) k = none := by
  unfold totalSeg
  cases hs : ts.filterMap fun p => if truthyTime p.2.start_time then p.2.start_time else none with
  | nil =>
    cases ts.filterMap fun p => if truthyTime p.2.end_time then p.2.end_time else none <;> rfl
  | cons s0 st =>
    cases ts.filterMap fun p => if truthyTime p.2.end_time then p.2.end_time else none with
    | nil => rfl
    | cons e0 et => simp [getk, Ne.symm h]

theorem orO_assoc {α : Type} (a b c : Option α) : orO (orO a b) c = orO a (orO b c) := by
  cases a <;> rfl

theorem pyGet_to_dict (m : PipelineMessage) (k : String) :
    pyGet m.to_dict k
      = (orO (getk [("user_input", Val.vstr m.user_input),
            ("timestamps", .vdict (m.timestamps.map fun p => (p.1, p.2.to_dict)))] k)
          (orO (getk (storySeg m) k)
            (orO (getk (optSeg "analysis" m.analysis) k)
              (orO (getk (optSeg "image_concept" m.image_concept) k)
                (orO (getk (optSeg "audio_script" m.audio_script) k)
                  (orO (getk (optSeg "translations" m.translations) k)
                    (orO (getk (optSeg "formatted_output" m.formatted_output) k)
                      (orO (getk (metaSeg m) k)
                        (getk (totalSeg m.timestamps) k))))))))).getD .vnull := by
  show (getk ([("user_input", Val.vstr m.user_input),
        ("timestamps", .vdict (m.timestamps.map fun p => (p.1, p.2.to_dict)))]
      ++ storySeg m ++ optSeg "analysis" m.analysis ++ optSeg "image_concept" m.image_concept
      ++ optSeg "audio_script" m.audio_script ++ optSeg "translations" m.translations
      ++ optSeg "formatted_output" m.formatted_output ++ metaSeg m
      ++ totalSeg m.timestamps) k).getD .vnull = _
  rw [getk_append, getk_append, getk_append, getk_append, getk_append, getk_append,
    getk_append, getk_append]
  simp only [orO_assoc]

theorem pyGet_to_dict_user_input (m : PipelineMessage) :
    pyGet m.to_dict "user_input" = .vstr m.user_input := by
  rw [pyGet_to_dict]
  simp [getk, orO]

theorem pyGet_to_dict_timestamps (m : PipelineMessage) :
    pyGet m.to_dict "timestamps"
      = .vdict (m.timestamps.map fun p => (p.1, p.2.to_dict)) := by
  rw [pyGet_to_dict]
  simp [getk, orO]

theorem pyGet_to_dict_story_text (m : PipelineMessage) :
    pyGet m.to_dict "story_text" = .vnull := by
  rw [pyGet_to_dict]
  rw [getk_storySeg_ne m _ (by decide), getk_optSeg_ne "analysis" _ _ (by decide),
    getk_optSeg_ne "image_concept" _ _ (by decide), getk_optSeg_ne "audio_script" _ _ (by decide),
    getk_optSeg_ne "translations" _ _ (by decide),
    getk_optSeg_ne "formatted_output" _ _ (by decide), getk_metaSeg_ne m _ (by decide),
    getk_totalSeg_ne _ _ (by decide)]
  simp [getk, orO]

theorem pyGet_to_dict_story (m : PipelineMessage) :
    pyGet m.to_dict "story"
      = match m.story_text with
        | some s =>
          if s != "" then
            .vdict [("text", .vstr s), ("word_count", .vint ((pySplit s).length : Int))]
          else .vnull
        | none => .vnull := by
  rw [pyGet_to_dict]
  rw [getk_optSeg_ne "analysis" _ _ (by decide), getk_optSeg_ne "image_concept" _ _ (by decide),
    getk_optSeg_ne "audio_script" _ _ (by decide), getk_optSeg_ne "translations" _ _ (by decide),
    getk_optSeg_ne "formatted_output" _ _ (by decide), getk_metaSeg_ne m _ (by decide),
    getk_totalSeg_ne _ _ (by decide)]
  cases hst : m.story_text with
  | none => simp [storySeg, hst, getk, orO]
  | some s =>
    by_cases hs : (s != "") = true <;> simp [storySeg, hst, hs, getk, orO]

theorem pyGet_to_dict_analysis (m : PipelineMessage) :
    pyGet m.to_dict "analysis"
      = if optTruthy m.analysis then m.analysis.getD .vnull else .vnull := by
  rw [pyGet_to_dict]
  rw [getk_storySeg_ne m _ (by decide), getk_optSeg_ne "image_concept" _ _ (by decide),
    getk_optSeg_ne "audio_script" _ _ (by decide), getk_optSeg_ne "translations" _ _ (by decide),
    getk_optSeg_ne "formatted_output" _ _ (by decide), getk_metaSeg_ne m _ (by decide),
    getk_totalSeg_ne _ _ (by decide), getk_optSeg_self]
  by_cases ht : optTruthy m.analysis <;> simp [ht, getk, orO]

theorem pyGet_to_dict_image_concept (m : PipelineMessage) :
    pyGet m.to_dict "image_concept"
      = if optTruthy m.image_concept then m.image_concept.getD .vnull else .vnull := by
  rw [pyGet_to_dict]
  rw [getk_storySeg_ne m _ (by decide), getk_optSeg_ne "analysis" _ _ (by decide),
    getk_optSeg_ne "audio_script" _ _ (by decide), getk_optSeg_ne "translations" _ _ (by decide),
    getk_optSeg_ne "formatted_output" _ _ (by decide), getk_metaSeg_ne m _ (by decide),
    getk_totalSeg_ne _ _ (by decide), getk_optSeg_self]
  by_cases ht : optTruthy m.image_concept <;> simp [ht, getk, orO]

theorem pyGet_to_dict_audio_script (m : PipelineMessage) :
    pyGet m.to_dict "audio_script"
      = if optTruthy m.audio_script then m.audio_script.getD .vnull else .vnull := by
  rw [pyGet_to_dict]
  rw [getk_storySeg_ne m _ (by decide), getk_optSeg_ne "analysis" _ _ (by decide),
    getk_optSeg_ne "image_concept" _ _ (by decide), getk_optSeg_ne "translations" _ _ (by decide),
    getk_optSeg_ne "formatted_output" _ _ (by decide), getk_metaSeg_ne m _ (by decide),
    getk_totalSeg_ne _ _ (by decide), getk_optSeg_self]
  by_cases ht : optTruthy m.audio_script <;> simp [ht, getk, orO]

theorem pyGet_to_dict_translations (m : PipelineMessage) :
    pyGet m.to_dict "translations"
      = if optTruthy m.translations then m.translations.getD .vnull else .vnull := by
  rw [pyGet_to_dict]
  rw [getk_storySeg_ne m _ (by decide), getk_optSeg_ne "analysis" _ _ (by decide),
    getk_optSeg_ne "image_concept" _ _ (by decide), getk_optSeg_ne "audio_script" _ _ (by decide),
    getk_optSeg_ne "formatted_output" _ _ (by decide), getk_metaSeg_ne m _ (by decide),
    getk_totalSeg_ne _ _ (by decide), getk_optSeg_self]
  by_cases ht : optTruthy m.translations <;> simp [ht, getk, orO]

theorem pyGet_to_dict_formatted_output (m : PipelineMessage) :
    pyGet m.to_dict "formatted_output"
      = if optTruthy m.formatted_output then m.formatted_output.getD .vnull else .vnull := by
  rw [pyGet_to_dict]
  rw [getk_storySeg_ne m _ (by decide), getk_optSeg_ne "analysis" _ _ (by decide),
    getk_optSeg_ne "image_concept" _ _ (by decide), getk_optSeg_ne "audio_script" _ _ (by decide),
    getk_optSeg_ne "translations" _ _ (by decide), getk_metaSeg_ne m _ (by decide),
    getk_totalSeg_ne _ _ (by decide), getk_optSeg_self]
  by_cases ht : optTruthy m.formatted_output <;> simp [ht, getk, orO]

theorem pyGet_to_dict_metadata (m : PipelineMessage) :
    pyGet m.to_dict "metadata"
      = if m.metadata.isEmpty then .vnull else .vdict m.metadata := by
  rw [pyGet_to_dict]
  rw [getk_storySeg_ne m _ (by decide), getk_optSeg_ne "analysis" _ _ (by decide),
    getk_optSeg_ne "image_concept" _ _ (by decide), getk_optSeg_ne "audio_script" _ _ (by decide),
    getk_optSeg_ne "translations" _ _ (by decide),
    getk_optSeg_ne "formatted_output" _ _ (by decide), getk_totalSeg_ne _ _ (by decide)]
  by_cases he : m.metadata.isEmpty <;> simp [metaSeg, he, getk, orO]

/-- Decoding a record's dictionary form recovers the record when its
service name matches its map key and its set instants are truthy. -/
theorem decode_record (n : String) (r : TimestampRecord)
    (hn : r.service_name = n)
    (hr : r.received_time ≠ some 0) (hs : r.start_time ≠ some 0)
    (he : r.end_time ≠ some 0) :
    (⟨n, asOptInt (pyGet r.to_dict "received_timestamp"),
      asOptInt (pyGet r.to_dict "started_timestamp"),
      asOptInt (pyGet r.to_dict "completed_timestamp")⟩ : TimestampRecord) = r := by
  obtain ⟨sn, rt, st, et⟩ := r
  simp only at hn hr hs he
  subst hn
  rcases rt with _ | t1 <;> rcases st with _ | t2 <;> rcases et with _ | t3 <;>
    simp_all [TimestampRecord.to_dict, truthyTime, pyGet, getk_append, getk, orO, asOptInt,
      bne_iff_ne]

/-- Folding the `from_dict` timestamp loop over encoded records rebuilds
the original map (fresh keys append in iteration order). -/
theorem decode_ts_enc (l : List (String × TimestampRecord))
    (acc : List (String × TimestampRecord))
    (hts : ∀ p ∈ l, p.2.service_name = p.1 ∧ p.2.received_time ≠ some 0
        ∧ p.2.start_time ≠ some 0 ∧ p.2.end_time ≠ some 0)
    (hnd : (l.map Prod.fst).Nodup)
    (hdisj : ∀ p ∈ l, getk acc p.1 = none) :
    (l.map fun p => (p.1, p.2.to_dict)).foldl ts_step acc = acc ++ l := by
  induction l generalizing acc with
  | nil => simp
  | cons hd tl ih =>
    obtain ⟨n, r⟩ := hd
    simp only [List.map_cons, List.foldl_cons]
    have hmatch : ts_step acc (n, r.to_dict)
        = setk acc n ⟨n, asOptInt (pyGet r.to_dict "received_timestamp"),
            asOptInt (pyGet r.to_dict "started_timestamp"),
            asOptInt (pyGet r.to_dict "completed_timestamp")⟩ := rfl
    obtain ⟨hname, hr, hs, he⟩ := hts (n, r) (by simp)
    rw [hmatch, decode_record n r hname hr hs he,
      getk_setk_of_none _ _ _ (hdisj (n, r) (by simp))]
    simp only [List.map_cons, List.nodup_cons] at hnd
    rw [ih _ (fun p hp => hts p (List.mem_cons_of_mem _ hp)) hnd.2 ?_]
    · simp
    · intro p hp
      rw [getk_append]
      rw [hdisj p (List.mem_cons_of_mem _ hp)]
      have hne : ¬(n = p.1) := fun hh =>
        hnd.1 (hh ▸ List.mem_map.mpr ⟨p, hp, rfl⟩)
      simp [getk, orO, hne]

/-- A truthy value is not `None`, so it survives the optional-field read. -/
theorem optVal_truthy (v : Option Val) (hv : v.all Val.truthy = true) :
    optVal (if optTruthy v then v.getD .vnull else .vnull) = v := by
  cases v with
  | none => rfl
  | some w =>
    have hw : Val.truthy w = true := hv
    simp only [optTruthy, hw, if_true, Option.getD_some]
    cases w <;> simp_all [Val.truthy, optVal]

/-- C2 (corrected): the claim fails for set-but-falsy values.  Concretely,
a message whose `story_text` is the empty string has a representable value
there, yet the encode/decode cycle returns it unset. -/
theorem claim_C2_counterexample :
    ({ user_input := "u", story_text := some "" } : PipelineMessage).story_text = some ""
    ∧ (PipelineMessage.from_dict
        ({ user_input := "u", story_text := some "" } : PipelineMessage).to_dict).story_text
      = none :=
  ⟨rfl, rfl⟩

/-- C2 (amended): `from_dict ∘ to_dict` is the identity on every message
whose set optional fields are truthy (non-empty string, non-empty map),
whose timestamp records carry their map key as `service_name` and no
zero-valued instants, and whose timestamp keys are duplicate-free.  Falsy
set values (empty string/map, zero instants) are encoded as absent and
decode as unset. -/
theorem claim_C2_amended (m : PipelineMessage)
    (hstory : m.story_text ≠ some "")
    (hana : m.analysis.all Val.truthy = true)
    (hic : m.image_concept.all Val.truthy = true)
    (haud : m.audio_script.all Val.truthy = true)
    (htr : m.translations.all Val.truthy = true)
    (hfo : m.formatted_output.all Val.truthy = true)
    (hts : ∀ p ∈ m.timestamps, p.2.service_name = p.1 ∧ p.2.received_time ≠ some 0
        ∧ p.2.start_time ≠ some 0 ∧ p.2.end_time ≠ some 0)
    (hnd : (m.timestamps.map Prod.fst).Nodup) :
    PipelineMessage.from_dict m.to_dict = m := by
  have hui := pyGet_to_dict_user_input m
  have hst0 := pyGet_to_dict_story_text m
  have hst := pyGet_to_dict_story m
  have hmeta := pyGet_to_dict_metadata m
  have htsd := pyGet_to_dict_timestamps m
  apply PipelineMessage.ext
  · show (match pyGet m.to_dict "user_input" with | .vstr s => s | _ => "") = m.user_input
    rw [hui]
  · show (match pyOr (pyGet m.to_dict "story_text")
        (pyAnd (pyGet m.to_dict "story") (pyGet (pyGet m.to_dict "story") "text")) with
      | .vstr s => some s
      | _ => none) = m.story_text
    rw [hst0, hst]
    cases hsv : m.story_text with
    | none => rfl
    | some s =>
      have hne : (s != "") = true := by
        simp [bne_iff_ne]
        intro hh
        exact hstory (hsv ▸ hh ▸ rfl)
      simp [hne, pyOr, pyAnd, Val.truthy, pyGet, getk]
  · show optVal (pyGet m.to_dict "analysis") = m.analysis
    rw [pyGet_to_dict_analysis]
    exact optVal_truthy _ hana
  · show optVal (pyGet m.to_dict "image_concept") = m.image_concept
    rw [pyGet_to_dict_image_concept]
    exact optVal_truthy _ hic
  · show optVal (pyGet m.to_dict "audio_script") = m.audio_script
    rw [pyGet_to_dict_audio_script]
    exact optVal_truthy _ haud
  · show optVal (pyGet m.to_dict "translations") = m.translations
    rw [pyGet_to_dict_translations]
    exact optVal_truthy _ htr
  · show optVal (pyGet m.to_dict "formatted_output") = m.formatted_output
    rw [pyGet_to_dict_formatted_output]
    exact optVal_truthy _ hfo
  · show decode_ts (match pyGet m.to_dict "timestamps" with | .vdict xs => xs | _ => [])
        = m.timestamps
    rw [htsd]
    show (m.timestamps.map fun p => (p.1, p.2.to_dict)).foldl ts_step [] = m.timestamps
    rw [decode_ts_enc m.timestamps [] hts hnd (fun p _ => rfl)]
    rfl
  · show (match pyGet m.to_dict "metadata" with | .vdict xs => xs | _ => []) = m.metadata
    rw [hmeta]
    cases hm : m.metadata with
    | nil => rfl
    | cons hd tl => simp

/-- A fully populated concrete message for the C2 witness. -/
def mRT : PipelineMessage :=
  { user_input := "u"
    story_text := some "happy tale"
    analysis := some (.vdict [("sentiment", .vstr "positive")])
    image_concept := some (.vdict [("scene", .vstr "s")])
    audio_script := some (.vdict [("tone", .vstr "calm")])
    translations := some (.vdict [("spanish", .vstr "hola")])
    formatted_output := some (.vdict [("html", .vstr "x")])
    timestamps := [("service_a_story_generator",
        ⟨"service_a_story_generator", some 5, some 6, some 7⟩),
      ("service_b_story_analyzer", ⟨"service_b_story_analyzer", none, some 8, some 9⟩)]
    metadata := [("theme", .vstr "space")] }

/-- Witness for C2 (amended) at a fully populated concrete message. -/
theorem claim_C2_witness :
    (mRT.story_text ≠ some "")
    ∧ (∀ p ∈ mRT.timestamps, p.2.service_name = p.1 ∧ p.2.received_time ≠ some 0
        ∧ p.2.start_time ≠ some 0 ∧ p.2.end_time ≠ some 0)
    ∧ (mRT.timestamps.map Prod.fst).Nodup
    ∧ PipelineMessage.from_dict mRT.to_dict = mRT :=
  ⟨by decide, by decide, by decide,
    claim_C2_amended mRT (by decide) rfl rfl rfl rfl rfl (by decide) (by decide)⟩

/-! ### C9 — story analyzer (`utils/text_analyzer.py`,
`services/service_b_story_analyzer.py`) -/

def POSITIVE_WORDS : List String :=
  ["happy", "joy", "success", "love", "beautiful", "wonderful", "amazing",
   "fantastic", "brilliant", "delighted", "pleased", "excellent", "great",
   "good", "peaceful", "harmony", "cooperation", "friendship", "triumph",
   "victory", "discovery", "hope", "bright", "inspiring", "heroic"]

def NEGATIVE_WORDS : List String :=
  ["sad", "fear", "danger", "evil", "dark", "terrible", "awful",
   "horrible", "difficult", "struggle", "conflict", "failure", "lost",
   "defeat", "crisis", "threat", "worried", "anxious", "trouble"]

def NEUTRAL_WORDS : List String :=
  ["the", "a", "an", "and", "or", "but", "in", "on", "at", "to", "for",
   "of", "with", "by", "from", "as", "is", "was", "are", "were", "be",
   "been", "being", "have", "has", "had", "do", "does", "did", "will",
   "would", "could", "should", "may", "might", "must", "can"]

/-- Python `str.strip(chars)`: remove the given characters from both ends. -/
def pyStrip (cs : List Char) (s : String) : String :=
  String.mk (((s.data.dropWhile (fun c => cs.contains c)).reverse.dropWhile
    (fun c => cs.contains c)).reverse)

/-- The strip set of service B's word-frequency pass. -/
def stripSet1 : List Char :=
  ['.', ',', '!', '?', ';', ':', '(', ')', '[', ']', '\x7b', '\x7d', '"', '\'']

/-- The strip set used by the keyword/character/length analyses. -/
def stripSet2 : List Char := ['.', ',', '!', '?', ';', ':']

/-- `TextAnalyzer.count_words`: whitespace-split word count. -/
def count_words (text : String) : Nat := (pySplit text).length

/-- `TextAnalyzer.count_sentences`: split on `.!?` runs, count the pieces
with a non-empty strip. -/
def count_sentences (text : String) : Nat :=
  (((text.split fun c => c == '.' || c == '!' || c == '?').map String.trim).filter
    (fun s => s != "")).length

/-- `TextAnalyzer.count_paragraphs`. -/
def count_paragraphs (text : String) : Nat :=
  (((text.splitOn "\n\n").map String.trim).filter (fun s => s != "")).length

/-- `TextAnalyzer.analyze_sentiment`: count positive/negative words of the
lowercased text; `count > other * 1.5` is written in the exact integer
form `2 * count > 3 * other`. -/
def analyze_sentiment (text : String) : String :=
  let words := pySplit text.toLower
  let positive_count := (words.filter (fun w => POSITIVE_WORDS.contains w)).length
  let negative_count := (words.filter (fun w => NEGATIVE_WORDS.contains w)).length
  if 2 * positive_count > 3 * negative_count then "positive"
  else if 2 * negative_count > 3 * positive_count then "negative"
  else "neutral"

/-- `collections.Counter` over strings: distinct keys in first-occurrence
order with their multiplicities. -/
def counter (l : List String) : List (String × Nat) :=
  (l.foldl (fun acc w => if acc.contains w then acc else acc ++ [w]) []).map
    (fun w => (w, (l.filter (fun x => x == w)).length))

/-- `collections.Counter` over characters (only its size reaches the
output). -/
def charCounter (l : List Char) : List (Char × Nat) :=
  (l.foldl (fun acc ch => if acc.contains ch then acc else acc ++ [ch]) []).map
    (fun ch => (ch, (l.filter (fun x => x == ch)).length))

/-- Stable insert for the descending-by-count sort. -/
def insertDesc (p : String × Nat) : List (String × Nat) → List (String × Nat)
  | [] => [p]
  | q :: t => if p.2 < q.2 then q :: insertDesc p t else p :: q :: t

/-- Stable sort by count descending (ties keep first-occurrence order), as
`Counter.most_common` produces. -/
def sortDesc : List (String × Nat) → List (String × Nat)
  | [] => []
  | p :: t => insertDesc p (sortDesc t)

/-- `Counter.most_common(n)`. -/
def most_common (c : List (String × Nat)) (n : Nat) : List (String × Nat) :=
  (sortDesc c).take n

/-- Substring containment (`needle in hay`). -/
def containsSub (hay needle : String) : Bool :=
  (List.range (hay.data.length + 1)).any (fun i => needle.data.isPrefixOf (hay.data.drop i))

/-- `TextAnalyzer.extract_keywords`: drop non-word characters (`\w` is
modelled at ASCII alphanumerics plus underscore), filter stopwords and
short words, rank by frequency. -/
def extract_keywords (text : String) (top_n : Nat) : List String :=
  let text_clean := String.mk (text.toLower.data.filter
      (fun c => c.isAlphanum || c == '_' || c.isWhitespace))
  let words := pySplit text_clean
  let meaningful_words := words.filter
      (fun w => !(NEUTRAL_WORDS.contains w) && w.length > 3)
  (most_common (counter meaningful_words) top_n).map Prod.fst

/-- `TextAnalyzer.extract_characters`. -/
def extract_characters (text : String) (known_characters : List String) : List String :=
  if !known_characters.isEmpty then
    known_characters.filter (fun ch => containsSub text.toLower ch.toLower)
  else
    let words := pySplit text
    let capitalized_words := (words.filter
        (fun w => !w.isEmpty && (w.data.headD ' ').isUpper)).map (pyStrip stripSet2)
    let word_freq := counter capitalized_words
    ((word_freq.filter (fun p => p.2 > 1
        && !(["The", "A", "An", "This", "That", "There"].contains p.1))).map Prod.fst).take 5

/-- Python `round(x, 2)` on the rational model of the float value. -/
def pyRound2 (q : ℚ) : ℚ := ((q * 100 + 1 / 2).floor : ℚ) / 100

/-- `TextAnalyzer.calculate_avg_word_length`. -/
def calculate_avg_word_length (text : String) : ℚ :=
  let words := pySplit text
  if words.isEmpty then 0
  else
    pyRound2 (((words.map (fun w => (pyStrip stripSet2 w).length)).sum : ℚ)
      / (words.length : ℚ))

/-- `TextAnalyzer.analyze`: the comprehensive analysis dictionary. -/
def analyze (text : String) (known_characters : List String) : List (String × Val) :=
  [("word_count", .vint (count_words text)),
   ("sentence_count", .vint (count_sentences text)),
   ("paragraph_count", .vint (count_paragraphs text)),
   ("sentiment", .vstr (analyze_sentiment text)),
   ("keywords", .vlist ((extract_keywords text 5).map .vstr)),
   ("characters", .vlist ((extract_characters text known_characters).map .vstr)),
   ("avg_word_length", .vrat (calculate_avg_word_length text))]

/-- `process_service_b`: requires a truthy `story_text` (else
`ValueError("Story text required for analysis")`), runs the analysis and
attaches it (with the processing metadata of phases 1–3; phases 4–5
compute sentiment scores and keyword scores that never reach the returned
message). -/
def process_service_b (message : PipelineMessage) : Except String PipelineMessage :=
  match message.story_text with
  | none => .error "Story text required for analysis"
  | some story_text =>
    if story_text = "" then .error "Story text required for analysis"
    else
      let words := pySplit story_text
      let word_frequency := counter ((words.map
          (fun w => (pyStrip stripSet1 w.toLower).trim)).filter (fun w => w.length > 0))
      let character_count := charCounter (story_text.toLower.data.filter Char.isAlpha)
      let avg_word_length : ℚ :=
        if words.isEmpty then 0
        else ((words.map String.length).sum : ℚ) / (words.length : ℚ)
      let patterns_found := (List.range 10).filterMap
          (fun pattern_id =>
            if words.any (fun w => containsSub w.toLower "pat") then
              some ("pattern_" ++ toString pattern_id)
            else none)
      let known_characters := match getk message.metadata "characters" with
        | some (.vlist xs) =>
          xs.filterMap (fun v => match v with | .vstr s => some s | _ => none)
        | _ => []
      let analysis := analyze story_text known_characters
      let processing_metadata : Val := .vdict
        [("word_frequency_analysis", .vint (word_frequency.length : Int)),
         ("character_analysis_count", .vint (character_count.length : Int)),
         ("pattern_searches_performed", .vint 10),
         ("patterns_found", .vint (patterns_found.length : Int)),
         ("sentiment_passes", .vint 3),
         ("avg_word_length_calculated", .vrat (pyRound2 avg_word_length))]
      .ok { message with
        analysis := some (.vdict (setk analysis "processing_metadata" processing_metadata)) }

theorem analyze_sentiment_cases (text : String) :
    analyze_sentiment text = "positive" ∨ analyze_sentiment text = "negative"
      ∨ analyze_sentiment text = "neutral" := by
  simp only [analyze_sentiment]
  split
  · left
    rfl
  · split
    · right
      left
      rfl
    · right
      right
      rfl

/-- C9 (confirmed): for every message with non-empty `story_text`, stage B
succeeds and its `analysis` carries a `sentiment` among
positive/negative/neutral and a `word_count` equal to the length of the
story's whitespace split. -/
theorem claim_C9 (m : PipelineMessage) (s : String)
    (hs : m.story_text = some s) (hne : s ≠ "") :
    ∃ m', process_service_b m = .ok m'
      ∧ ∃ a, m'.analysis = some (.vdict a)
        ∧ (getk a "sentiment" = some (.vstr "positive")
            ∨ getk a "sentiment" = some (.vstr "negative")
            ∨ getk a "sentiment" = some (.vstr "neutral"))
        ∧ getk a "word_count" = some (.vint ((pySplit s).length : Int)) := by
  have hstep : process_service_b m
      = .ok { m with analysis := some (.vdict (setk (analyze s
          (match getk m.metadata "characters" with
            | some (.vlist xs) =>
              xs.filterMap (fun v => match v with | .vstr s => some s | _ => none)
            | _ => [])) "processing_metadata" (.vdict
        [("word_frequency_analysis", .vint ((counter (((pySplit s).map
            (fun w => (pyStrip stripSet1 w.toLower).trim)).filter
            (fun w => w.length > 0))).length : Int)),
         ("character_analysis_count",
            .vint ((charCounter (s.toLower.data.filter Char.isAlpha)).length : Int)),
         ("pattern_searches_performed", .vint 10),
         ("patterns_found", .vint (((List.range 10).filterMap
            (fun pattern_id =>
              if (pySplit s).any (fun w => containsSub w.toLower "pat") then
                some ("pattern_" ++ toString pattern_id)
              else none)).length : Int)),
         ("sentiment_passes", .vint 3),
         ("avg_word_length_calculated", .vrat (pyRound2
            (if (pySplit s).isEmpty then 0
             else (((pySplit s).map String.length).sum : ℚ) / ((pySplit s).length : ℚ))))]))) } := by
    unfold process_service_b
    rw [hs]
    simp only [hne, if_false]
  refine ⟨_, hstep, _, rfl, ?_, ?_⟩
  · rw [getk_setk_ne _ _ _ _ (by decide)]
    have : getk (analyze s (match getk m.metadata "characters" with
        | some (.vlist xs) =>
          xs.filterMap (fun v => match v with | .vstr s => some s | _ => none)
        | _ => [])) "sentiment" = some (.vstr (analyze_sentiment s)) := by
      simp [analyze, getk]
    rw [this]
    rcases analyze_sentiment_cases s with h | h | h <;> simp [h]
  · rw [getk_setk_ne _ _ _ _ (by decide)]
    simp [analyze, getk, count_words]

/-- Witness for C9 at a concrete story. -/
theorem claim_C9_witness :
    ∃ m', process_service_b { user_input := "u", story_text := some "happy story" } = .ok m'
      ∧ ∃ a, m'.analysis = some (.vdict a)
        ∧ (getk a "sentiment" = some (.vstr "positive")
            ∨ getk a "sentiment" = some (.vstr "negative")
            ∨ getk a "sentiment" = some (.vstr "neutral"))
        ∧ getk a "word_count" = some (.vint ((pySplit "happy story").length : Int)) :=
  claim_C9 { user_input := "u", story_text := some "happy story" } "happy story" rfl
    (by decide)

end StoryPipeline
